import Mathlib

/-!
Shallow embedding of the MDS provider client
(src/mds_provider_client/mds_provider_client.py and
src/mds_provider_client/client.py).

Both files define a `ProviderClient` whose `_request` method runs an outer
pagination loop over JSON page envelopes and an inner timeout-retry loop
around `session.get`.  The two inner loops are behaviourally identical
(the sleep and the logging have no observable effect on the returned data),
so they share one model, `retryFrom`.  The outer loops differ: the
`mds_provider_client.py` revision sets `params = None` once a `links`
object is seen, while the `client.py` revision keeps sending the original
params with every request; they are modelled separately as `fetchLoop`
and `fetchLoopC`.

The network is modelled as, per pagination round, a function from the
attempt index to an outcome (a timeout, or a response with a status code
and a parsed JSON body).  Each fetch records a trace of the requests it
issued (url and query params per round) and the total number of attempts.
-/

namespace MdsProvider

/-- Association-list model of a Python dict together with key lookup,
modelling `d[k] if k in d else ...` and `d.get(k)`. -/
def lookupKey {β : Type} : List (String × β) → String → Option β
  | [], _ => none
  | (k, v) :: rest, key => if k = key then some v else lookupKey rest key

/-- A parsed JSON page envelope: an optional `data` object mapping endpoint
names to record arrays, and an optional `links` object mapping link names
to URLs. -/
structure Page (α : Type) where
  data : Option (List (String × List α))
  links : Option (List (String × String))
deriving DecidableEq

variable {α : Type}

/-- The payload extraction inside `__has_data`:
`data = page["data"] if "data" in page else special-empty-dict;`
`payload = data[endpoint] if endpoint in data else []`.
When `data` is absent the substituted dict maps no endpoint to a non-empty
list, so the payload is `[]` in every case the code can reach. -/
def payloadOf (endpoint : String) (page : Page α) : List α :=
  match page.data with
  | none => []
  | some d => (lookupKey d endpoint).getD []

/-- `__has_data`: `return len(payload) > 0` (identical in both files). -/
def hasData (endpoint : String) (page : Page α) : Bool :=
  decide (0 < (payloadOf endpoint page).length)

/-- The outcome of one `session.get` attempt: a transport timeout, or a
response carrying an HTTP status and a parsed JSON body. -/
inductive Outcome (α : Type) where
  | timeout
  | response (status : Nat) (page : Page α)

/-- `requests.Response.raise_for_status` raises `HTTPError` exactly for
status codes in 400..599; other codes (200, but also 204, 304, ...) pass. -/
def raiseForStatus (status : Nat) : Bool :=
  decide (400 ≤ status) && decide (status < 600)

/-- Result of the inner retry loop. -/
inductive RetryOut (α : Type) where
  | ok (status : Nat) (page : Page α) (attempts : Nat)
  | httpError (status : Nat) (attempts : Nat)
  | timeoutErr (attempts : Nat)
  | noResponse
deriving DecidableEq

/-- The inner timeout-retry loop, shared by both files:

  attempts = 0
  while attempts < self.max_attempts:
      attempts += 1
      try:
          r = self.session.get(url, params=params, timeout=self.timeout)
          r.raise_for_status()          # (client.py guards this with a log)
          break
      except requests.exceptions.Timeout as e:
          if attempts < self.max_attempts: continue
          else: raise e

`net i` is the outcome of the attempt made when the counter was `i`
(0-based), `attempts` the number of attempts already made.  `max_attempts`
is a Python int, so it is modelled as an integer; when it is not positive
the loop body never runs, which `noResponse` records.  The `time.sleep`
before each attempt in mds_provider_client.py has no observable effect on
the data and is not modelled. -/
def retryFrom (maxAttempts : Int) (net : Nat → Outcome α) (attempts : Nat) :
    RetryOut α :=
  if (attempts : Int) < maxAttempts then
    match net attempts with
    | .timeout =>
        if ((attempts + 1 : Nat) : Int) < maxAttempts then
          retryFrom maxAttempts net (attempts + 1)
        else
          .timeoutErr (attempts + 1)
    | .response st page =>
        if raiseForStatus st then .httpError st (attempts + 1)
        else .ok st page (attempts + 1)
  else
    .noResponse
termination_by (maxAttempts - attempts).toNat
decreasing_by omega

/-- One request issued by the fetcher: the URL and the query params sent
with it (`none` models Python `params=None`, i.e. no query string). -/
structure ReqRecord where
  url : String
  params : Option (List (String × String))
deriving DecidableEq

/-- How a `_request` call ends: the accumulated record list on normal
termination, or the exception that escaped.  `attributeError` is the
unguarded read of the response variable (`self.res` / `r`) when the retry
loop never ran; `exhausted` is a model artifact marking that the supplied
per-round outcome list ran out while the code would have kept paging. -/
inductive FetchResult (α : Type) where
  | ok (records : List α)
  | timeoutError
  | httpError (status : Nat)
  | attributeError
  | exhausted
deriving DecidableEq

/-- Observable output of one `_request` call: its result, the trace of
requests issued (one entry per pagination round, recording the URL and the
query params used for the attempts of that round), and the total number of
`session.get` attempts made. -/
structure FetchOut (α : Type) where
  result : FetchResult α
  trace : List ReqRecord
  attempts : Nat
deriving DecidableEq

/-- The outer pagination loop of `_request` in mds_provider_client.py:

  while True:
      <retry loop>                       -- retryFrom
      this_page = self.res.json()
      if __has_data(this_page): getattr(self, endpoint).extend(...)
      else: break
      self.links = this_page.get("links")
      if not self.links: break           -- falsy: absent or empty dict
      params = None                      -- drop original query params
      url = self.links.get("next")
      if not paging or not url: break    -- falsy: absent or empty string
  return getattr(self, endpoint)

`rounds` lists, for each pagination round, the outcome of each attempt of
that round. -/
def fetchLoop (maxAttempts : Int) (endpoint : String) (paging : Bool)
    (rounds : List (Nat → Outcome α)) (url : String)
    (params : Option (List (String × String))) (acc : List α)
    (trace : List ReqRecord) (attempts : Nat) : FetchOut α :=
  match rounds with
  | [] => ⟨.exhausted, trace, attempts⟩
  | net :: rest =>
    let trace' := trace ++ [⟨url, params⟩]
    match retryFrom maxAttempts net 0 with
    | .noResponse => ⟨.attributeError, trace', attempts⟩
    | .timeoutErr k => ⟨.timeoutError, trace', attempts + k⟩
    | .httpError st k => ⟨.httpError st, trace', attempts + k⟩
    | .ok _st page k =>
      if hasData endpoint page then
        let acc' := acc ++ payloadOf endpoint page
        match page.links with
        | none => ⟨.ok acc', trace', attempts + k⟩
        | some links =>
          if links.isEmpty then ⟨.ok acc', trace', attempts + k⟩
          else
            match lookupKey links "next" with
            | none => ⟨.ok acc', trace', attempts + k⟩
            | some nextUrl =>
              if !paging || nextUrl == "" then ⟨.ok acc', trace', attempts + k⟩
              else
                fetchLoop maxAttempts endpoint paging rest nextUrl none acc'
                  trace' (attempts + k)
      else ⟨.ok acc, trace', attempts + k⟩

/-- Entry into `_request` (mds_provider_client.py): the accumulator
`setattr(self, endpoint, [])` starts empty and the caller-built params dict
is sent with the first request. -/
def fetchMds (maxAttempts : Int) (endpoint : String) (paging : Bool)
    (rounds : List (Nat → Outcome α)) (url : String)
    (params : List (String × String)) : FetchOut α :=
  fetchLoop maxAttempts endpoint paging rounds url (some params) [] [] 0

/-- `__next_url` in client.py:
`page["links"].get("next") if "links" in page else None`. -/
def nextUrlC (page : Page α) : Option String :=
  match page.links with
  | none => none
  | some links => lookupKey links "next"

/-- The outer pagination loop of `_request` in client.py:

  while True:
      <retry loop>
      this_page = r.json()
      if __has_data(this_page): getattr(self, endpoint).extend(...)
      else: break
      url = __next_url(this_page)
      if not paging or not url: break

Unlike mds_provider_client.py it never clears `params`: the original query
params are resent with every next-link request. -/
def fetchLoopC (maxAttempts : Int) (endpoint : String) (paging : Bool)
    (rounds : List (Nat → Outcome α)) (url : String)
    (params : Option (List (String × String))) (acc : List α)
    (trace : List ReqRecord) (attempts : Nat) : FetchOut α :=
  match rounds with
  | [] => ⟨.exhausted, trace, attempts⟩
  | net :: rest =>
    let trace' := trace ++ [⟨url, params⟩]
    match retryFrom maxAttempts net 0 with
    | .noResponse => ⟨.attributeError, trace', attempts⟩
    | .timeoutErr k => ⟨.timeoutError, trace', attempts + k⟩
    | .httpError st k => ⟨.httpError st, trace', attempts + k⟩
    | .ok _st page k =>
      if hasData endpoint page then
        let acc' := acc ++ payloadOf endpoint page
        match nextUrlC page with
        | none => ⟨.ok acc', trace', attempts + k⟩
        | some nextUrl =>
          if !paging || nextUrl == "" then ⟨.ok acc', trace', attempts + k⟩
          else
            fetchLoopC maxAttempts endpoint paging rest nextUrl params acc'
              trace' (attempts + k)
      else ⟨.ok acc, trace', attempts + k⟩

/-- Entry into `_request` (client.py). -/
def fetchClient (maxAttempts : Int) (endpoint : String) (paging : Bool)
    (rounds : List (Nat → Outcome α)) (url : String)
    (params : List (String × String)) : FetchOut α :=
  fetchLoopC maxAttempts endpoint paging rounds url (some params) [] [] 0

/-- A well-behaved server round: the page is served with status 200 on the
first attempt. -/
def pageNet (p : Page α) : Nat → Outcome α := fun _ => Outcome.response 200 p

/-- The page lets the mds_provider_client.py loop continue to another
round: a truthy `links` object whose `next` entry is a truthy string. -/
def followsNext (p : Page α) : Bool :=
  match p.links with
  | none => false
  | some links =>
      !links.isEmpty &&
        (match lookupKey links "next" with
         | none => false
         | some u => !(u == ""))

/-- The page carries no `next` link at all (its `links` object, if present,
has no `next` key). -/
def lastNoNext (p : Page α) : Bool :=
  match p.links with
  | none => true
  | some links => (lookupKey links "next").isNone

/-- A full pagination sequence as in claim C1: every page has a non-empty
record array, every page but the last continues with a `next` link, and
the last page has no `next` link. -/
def pageChain (endpoint : String) : List (Page α) → Bool
  | [] => true
  | [p] => hasData endpoint p && lastNoNext p
  | p :: q :: rest =>
      hasData endpoint p && followsNext p && pageChain endpoint (q :: rest)

/-- A prefix of a pagination sequence in which every page has records and a
`next` link to follow. -/
def goodPrefix (endpoint : String) : List (Page α) → Bool
  | [] => true
  | p :: rest => hasData endpoint p && followsNext p && goodPrefix endpoint rest

/-- The configuration error raised by `__init__` in mds_provider_client.py
(`raise Exception("Username or token is required")`), named after the
taxonomy of the design document. -/
inductive ConfigError where
  | configurationError
deriving DecidableEq

/-- Python truthiness of an optional string value: `None` and the empty
string are falsy (`if not token and not user`). -/
def truthyStr : Option String → Bool
  | none => false
  | some s => !(s == "")

/-- How an optional string renders inside a Python f-string:
`None` becomes the text "None". -/
def pyStr : Option String → String
  | none => "None"
  | some s => s

/-- Python `str.lower()` (ASCII case folding suffices for the
`auth_type.lower() == "httpbasicauth"` comparison the code makes). -/
def strLower (s : String) : String := ⟨s.data.map Char.toLower⟩

/-- Python `dict.update` with a single key: replace the value in place if
the key exists, else append the pair. -/
def setKey : List (String × String) → String → String → List (String × String)
  | [], k, v => [(k, v)]
  | (k', v') :: rest, k, v =>
      if k' = k then (k, v) :: rest else (k', v') :: setKey rest k v

/-- The authenticated request context: transport-level basic-auth
credentials (`session.auth`), and the explicitly set default headers
(`session.headers`; only the ones this code sets are modelled). -/
structure Session where
  auth : Option (Option String × Option String)
  headers : List (String × String)
deriving DecidableEq

/-- The constructor arguments of `ProviderClient` in
mds_provider_client.py that credential handling observes.  `headers` is
already the `headers if headers else {}` normalization. -/
structure Config where
  url : String
  auth_type : String
  token : Option String
  user : Option String
  password : Option String
  headers : List (String × String)
deriving DecidableEq

/-- `_auth_session` (mds_provider_client.py):

  session = Session()
  if self.auth_type.lower() == "httpbasicauth":
      session.auth = (self.user, self.password)
  else:
      self.headers.update(Authorization = f-string of auth_type and token)
      session.headers.update(self.headers)
  return session

In the basic-auth branch no header is set on the session at all; in the
other branch the Authorization entry is written into the caller-supplied
headers last, so it wins over any caller-supplied Authorization value. -/
def authSession (cfg : Config) : Session :=
  if strLower cfg.auth_type == "httpbasicauth" then
    { auth := some (cfg.user, cfg.password), headers := [] }
  else
    { auth := none,
      headers := setKey cfg.headers "Authorization"
        (cfg.auth_type ++ " " ++ pyStr cfg.token) }

/-- `__init__` (mds_provider_client.py): stores the configuration, raises
when both `token` and `user` are falsy, and otherwise builds the session.
The raise happens before `_auth_session` runs, and neither path performs
any network request. -/
def clientInit (cfg : Config) : Except ConfigError Session :=
  if !truthyStr cfg.token && !truthyStr cfg.user then
    .error .configurationError
  else
    .ok (authSession cfg)

/-- The constructor arguments of `ProviderClient` in client.py: `token` is
a positional parameter (its value may still be `None`), and there are no
`user`/`password` parameters at all. -/
structure ConfigC where
  url : String
  token : Option String
  auth_type : String
  headers : List (String × String)
deriving DecidableEq

/-- `_auth_session` (client.py): unconditionally sets the Authorization
header; there is no basic-auth branch. -/
def authSessionC (cfg : ConfigC) : Session :=
  { auth := none,
    headers := setKey cfg.headers "Authorization"
      (cfg.auth_type ++ " " ++ pyStr cfg.token) }

/-- `__init__` (client.py): stores the configuration and builds the
session.  There is no credential check of any kind: no configuration makes
construction fail. -/
def clientInitC (cfg : ConfigC) : Except ConfigError Session :=
  .ok (authSessionC cfg)

/-- `int(q)` applied to a Python number: truncation toward zero. -/
def intTrunc (q : ℚ) : ℤ := if 0 ≤ q then ⌊q⌋ else ⌈q⌉

/-- An argument accepted by `_date_format`: a `datetime` (carrying its
POSIX timestamp, a possibly fractional number of Unix seconds) or a plain
number. -/
inductive TimeInput where
  | datetime (ts : ℚ)
  | number (x : ℚ)

/-- `_date_format` (identical in both files):
`int(dt.timestamp()) if isinstance(dt, datetime) else int(dt)`. -/
def dateFormat : TimeInput → ℤ
  | .datetime ts => intTrunc ts
  | .number x => intTrunc x

/-- The time-filter normalization in `get_status_changes` / `get_trips`:
`start_time = self._date_format(start_time) if start_time is not None`. -/
def normalizeTime : Option TimeInput → Option ℤ
  | none => none
  | some t => some (dateFormat t)

/-- Concrete two-page pagination sequence (note the record 1 occurring on
both pages: nothing is deduplicated). -/
def pagesW : List (Page Nat) :=
  [⟨some [("trips", [1, 2])], some [("next", "https://x/trips?page=2")]⟩,
   ⟨some [("trips", [3, 1])], none⟩]

/-- Concrete good prefix page and a terminating page that carries a `next`
link but an empty record array. -/
def pageEmptyW : Page Nat :=
  ⟨some [("trips", [])], some [("next", "https://x/trips?page=3")]⟩

/-- Concrete page for the retry scenarios: records but no `links`. -/
def pw : Page Nat := ⟨some [("trips", [7])], none⟩

/-- A transport that times out on every attempt. -/
def netTimeoutW : Nat → Outcome Nat := fun _ => Outcome.timeout

/-- A transport whose first two attempts time out and whose third attempt
returns `pw` with status 200. -/
def netThirdW : Nat → Outcome Nat := fun i =>
  if i < 2 then Outcome.timeout else Outcome.response 200 pw

/-- A response with the non-200, non-4xx/5xx status 204 and a normal
envelope holding one record and no `links`. -/
def page204 : Page Nat := ⟨some [("trips", [1])], none⟩

/-- First page for the client.py params counterexample: one record and a
`next` link. -/
def cPage1 : Page Nat := ⟨some [("trips", [10])], some [("next", "u2")]⟩

/-- Second page for the client.py params counterexample: one record, no
`links`. -/
def cPage2 : Page Nat := ⟨some [("trips", [20])], none⟩

/-- Concrete configuration whose caller-supplied headers even try to smuggle
in their own Authorization value. -/
def cfgW : Config :=
  ⟨"https://x", "Bearer", some "T", none, none, [("Authorization", "evil")]⟩

/-- The session `clientInit cfgW` builds. -/
def sessW : Session := ⟨none, [("Authorization", "Bearer T")]⟩

/-- One-step unfolding of `retryFrom`. -/
theorem retryFrom_eq (maxAttempts : Int) (net : Nat → Outcome α) (a : Nat) :
    retryFrom maxAttempts net a =
      if (a : Int) < maxAttempts then
        match net a with
        | .timeout =>
            if ((a + 1 : Nat) : Int) < maxAttempts then
              retryFrom maxAttempts net (a + 1)
            else
              .timeoutErr (a + 1)
        | .response st page =>
            if raiseForStatus st then .httpError st (a + 1)
            else .ok st page (a + 1)
      else
        .noResponse := by
  rw [retryFrom]

/-- When the loop counter has not reached `max_attempts`, every attempt from
`a` on times out, so the retry loop exhausts all its attempts and raises the
timeout with `attempts = max_attempts`. -/
theorem retryFrom_all_timeout (M : Int) (net : Nat → Outcome α) :
    ∀ (fuel a : Nat), M.toNat - a = fuel → (a : Int) < M →
      (∀ i : Nat, a ≤ i → (i : Int) < M → net i = Outcome.timeout) →
      retryFrom M net a = .timeoutErr M.toNat := by
  intro fuel
  induction fuel with
  | zero =>
    intro a h0 ha _
    exfalso
    omega
  | succ n ih =>
    intro a h0 ha hto
    rw [retryFrom_eq, if_pos ha, hto a le_rfl ha]
    by_cases hb : ((a + 1 : Nat) : Int) < M
    · show (if ((a + 1 : Nat) : Int) < M then retryFrom M net (a + 1)
          else RetryOut.timeoutErr (a + 1)) = RetryOut.timeoutErr M.toNat
      rw [if_pos hb]
      exact ih (a + 1) (by omega) hb fun i h1 h2 => hto i (by omega) h2
    · show (if ((a + 1 : Nat) : Int) < M then retryFrom M net (a + 1)
          else RetryOut.timeoutErr (a + 1)) = RetryOut.timeoutErr M.toNat
      rw [if_neg hb]
      congr 1
      omega

/-- If attempts `a, ..., j-1` time out and attempt `j` (still within the
attempt budget) receives a response that `raise_for_status` does not raise
on, the retry loop returns that response having made `j + 1` attempts. -/
theorem retryFrom_success (M : Int) (net : Nat → Outcome α) (j st : Nat)
    (p : Page α) (hj : (j : Int) < M) (hresp : net j = .response st p)
    (hst : raiseForStatus st = false) :
    ∀ (fuel a : Nat), j - a = fuel → a ≤ j →
      (∀ i : Nat, a ≤ i → i < j → net i = Outcome.timeout) →
      retryFrom M net a = .ok st p (j + 1) := by
  intro fuel
  induction fuel with
  | zero =>
    intro a h0 ha _
    have haj : a = j := by omega
    subst haj
    rw [retryFrom_eq, if_pos hj, hresp]
    show (if raiseForStatus st then RetryOut.httpError st (a + 1)
        else RetryOut.ok st p (a + 1)) = RetryOut.ok st p (a + 1)
    rw [hst]
    simp
  | succ n ih =>
    intro a h0 ha hto
    have haj : a < j := by omega
    have haM : (a : Int) < M := by omega
    rw [retryFrom_eq, if_pos haM, hto a le_rfl haj]
    have hb : ((a + 1 : Nat) : Int) < M := by omega
    show (if ((a + 1 : Nat) : Int) < M then retryFrom M net (a + 1)
        else RetryOut.timeoutErr (a + 1)) = RetryOut.ok st p (j + 1)
    rw [if_pos hb]
    exact ih (a + 1) (by omega) (by omega) fun i h1 h2 => hto i (by omega) h2

/-- If attempts `a, ..., j-1` time out and attempt `j` receives a response
with a 4xx/5xx status, the retry loop raises the HTTP error at once, after
exactly `j + 1` attempts: timeouts are the only retried failure. -/
theorem retryFrom_httpError (M : Int) (net : Nat → Outcome α) (j st : Nat)
    (p : Page α) (hj : (j : Int) < M) (hresp : net j = .response st p)
    (hst : raiseForStatus st = true) :
    ∀ (fuel a : Nat), j - a = fuel → a ≤ j →
      (∀ i : Nat, a ≤ i → i < j → net i = Outcome.timeout) →
      retryFrom M net a = .httpError st (j + 1) := by
  intro fuel
  induction fuel with
  | zero =>
    intro a h0 ha _
    have haj : a = j := by omega
    subst haj
    rw [retryFrom_eq, if_pos hj, hresp]
    show (if raiseForStatus st then RetryOut.httpError st (a + 1)
        else RetryOut.ok st p (a + 1)) = RetryOut.httpError st (a + 1)
    rw [hst]
    simp
  | succ n ih =>
    intro a h0 ha hto
    have haj : a < j := by omega
    have haM : (a : Int) < M := by omega
    rw [retryFrom_eq, if_pos haM, hto a le_rfl haj]
    have hb : ((a + 1 : Nat) : Int) < M := by omega
    show (if ((a + 1 : Nat) : Int) < M then retryFrom M net (a + 1)
        else RetryOut.timeoutErr (a + 1)) = RetryOut.httpError st (j + 1)
    rw [if_pos hb]
    exact ih (a + 1) (by omega) (by omega) fun i h1 h2 => hto i (by omega) h2

/-- With a non-positive `max_attempts` the while condition is false at
entry: the loop body never runs and no request is attempted. -/
theorem retryFrom_noResponse (M : Int) (net : Nat → Outcome α) (hM : M ≤ 0) :
    retryFrom M net 0 = .noResponse := by
  rw [retryFrom_eq, if_neg (by omega)]

/-- A round served as `pageNet p` succeeds on its first attempt whenever at
least one attempt is allowed. -/
theorem retryFrom_pageNet (M : Int) (hM : 0 < M) (p : Page α) :
    retryFrom M (pageNet p) 0 = .ok 200 p 1 := by
  rw [retryFrom_eq]
  have h0 : ((0 : Nat) : Int) < M := by omega
  rw [if_pos h0]
  rfl

/-- A pagination round whose page does not let the loop continue (no
records, or no usable `next` link, or `paging` off) ends the
mds_provider_client.py fetch with the records accumulated so far (extended
by this page exactly when it has records). -/
theorem fetchLoop_round_break (M : Int) (endpoint : String) (paging : Bool)
    (net : Nat → Outcome α) (rest : List (Nat → Outcome α)) (url : String)
    (params : Option (List (String × String))) (acc : List α)
    (trace : List ReqRecord) (attempts : Nat) (st k : Nat) (p : Page α)
    (hr : retryFrom M net 0 = .ok st p k)
    (hbreak : hasData endpoint p = false ∨ followsNext p = false
                ∨ paging = false) :
    fetchLoop M endpoint paging (net :: rest) url params acc trace attempts
      = ⟨.ok (if hasData endpoint p then acc ++ payloadOf endpoint p else acc),
         trace ++ [⟨url, params⟩], attempts + k⟩ := by
  simp only [fetchLoop, hr]
  cases hd : hasData endpoint p with
  | false => simp [hd]
  | true =>
    simp only [hd, if_true]
    cases hl : p.links with
    | none => rfl
    | some links =>
      cases he : links.isEmpty with
      | true => simp [he]
      | false =>
        simp only [he, Bool.false_eq_true, if_false]
        cases hn : lookupKey links "next" with
        | none => rfl
        | some u =>
          have hcond : (!paging || u == "") = true := by
            rcases hbreak with h | h | h
            · rw [hd] at h
              exact absurd h (by simp)
            · simp only [followsNext, hl, he, hn] at h
              simp at h
              simp [h]
            · simp [h]
          simp only [hn, hcond, if_true]

/-- A pagination round whose page has records and a usable `next` link
makes the mds_provider_client.py fetch (with `paging=True`) continue to the
next round, at the `next` URL, with the original query params dropped. -/
theorem fetchLoop_round_continue (M : Int) (endpoint : String)
    (net : Nat → Outcome α) (rest : List (Nat → Outcome α)) (url : String)
    (params : Option (List (String × String))) (acc : List α)
    (trace : List ReqRecord) (attempts : Nat) (st k : Nat) (p : Page α)
    (u : String) (hr : retryFrom M net 0 = .ok st p k)
    (hd : hasData endpoint p = true) (hf : followsNext p = true)
    (hu : nextUrlC p = some u) :
    fetchLoop M endpoint true (net :: rest) url params acc trace attempts
      = fetchLoop M endpoint true rest u none (acc ++ payloadOf endpoint p)
          (trace ++ [⟨url, params⟩]) (attempts + k) := by
  simp only [fetchLoop, hr, hd, if_true]
  cases hl : p.links with
  | none => simp [followsNext, hl] at hf
  | some links =>
    cases he : links.isEmpty with
    | true => simp [followsNext, hl, he] at hf
    | false =>
      simp only [he, Bool.false_eq_true, if_false]
      cases hn : lookupKey links "next" with
      | none => simp [followsNext, hl, he, hn] at hf
      | some v =>
        have hv : v = u := by
          simp only [nextUrlC, hl, hn] at hu
          exact Option.some_injective _ hu
        subst hv
        simp only [followsNext, hl, he, hn] at hf
        simp at hf
        simp [hf]

/-- The retry loop failing (timeout exhaustion, HTTP error, or never
having run) ends the mds_provider_client.py fetch at once with the
corresponding exception; no further round is attempted. -/
theorem fetchLoop_round_err (M : Int) (endpoint : String) (paging : Bool)
    (net : Nat → Outcome α) (rest : List (Nat → Outcome α)) (url : String)
    (params : Option (List (String × String))) (acc : List α)
    (trace : List ReqRecord) (attempts : Nat) :
    (∀ k, retryFrom M net 0 = .timeoutErr k →
        fetchLoop M endpoint paging (net :: rest) url params acc trace attempts
          = ⟨.timeoutError, trace ++ [⟨url, params⟩], attempts + k⟩)
  ∧ (∀ st k, retryFrom M net 0 = .httpError st k →
        fetchLoop M endpoint paging (net :: rest) url params acc trace attempts
          = ⟨.httpError st, trace ++ [⟨url, params⟩], attempts + k⟩)
  ∧ (retryFrom M net 0 = .noResponse →
        fetchLoop M endpoint paging (net :: rest) url params acc trace attempts
          = ⟨.attributeError, trace ++ [⟨url, params⟩], attempts⟩) := by
  refine ⟨fun k hk => ?_, fun st k hk => ?_, fun hk => ?_⟩ <;>
    simp only [fetchLoop, hk]

/-- A page with no `next` key in its `links` cannot make the loop follow. -/
theorem followsNext_eq_false_of_lastNoNext (p : Page α)
    (h : lastNoNext p = true) : followsNext p = false := by
  cases hl : p.links with
  | none => simp [followsNext, hl]
  | some links =>
    simp only [lastNoNext, hl] at h
    cases hn : lookupKey links "next" with
    | none => simp [followsNext, hl, hn]
    | some u => simp [hn] at h

/-- A page the loop follows has a `next` URL. -/
theorem nextUrlC_of_followsNext (p : Page α) (h : followsNext p = true) :
    ∃ u, nextUrlC p = some u := by
  cases hl : p.links with
  | none => simp [followsNext, hl] at h
  | some links =>
    simp only [followsNext, hl] at h
    cases hn : lookupKey links "next" with
    | none => simp [hn] at h
    | some u => exact ⟨u, by simp [nextUrlC, hl, hn]⟩

/-- A page without data has an empty payload. -/
theorem payloadOf_eq_nil (endpoint : String) (p : Page α)
    (h : hasData endpoint p = false) : payloadOf endpoint p = [] := by
  simp only [hasData, decide_eq_false_iff_not, Nat.not_lt,
    Nat.le_zero] at h
  exact List.length_eq_zero.mp h

/-- Running the mds_provider_client.py pagination loop over a full
`pageChain` sequence of pages accumulates exactly the concatenation of
their payloads, in order. -/
theorem fetchLoop_chain (M : Int) (hM : 1 ≤ M) (endpoint : String) :
    ∀ (ps : List (Page α)) (url : String)
      (params : Option (List (String × String))) (acc : List α)
      (trace : List ReqRecord) (attempts : Nat),
      ps ≠ [] → pageChain endpoint ps = true →
      (fetchLoop M endpoint true (ps.map pageNet) url params acc trace
          attempts).result
        = .ok (acc ++ (ps.map (payloadOf endpoint)).flatten) := by
  intro ps
  induction ps with
  | nil => intro url params acc trace attempts hne _; exact absurd rfl hne
  | cons p rest ih =>
    intro url params acc trace attempts _ hchain
    cases rest with
    | nil =>
      obtain ⟨hd, hlast⟩ : hasData endpoint p = true ∧ lastNoNext p = true := by
        simpa [pageChain, Bool.and_eq_true] using hchain
      have hf := followsNext_eq_false_of_lastNoNext p hlast
      rw [List.map_cons, List.map_nil,
        fetchLoop_round_break M endpoint true (pageNet p) [] url params acc
          trace attempts 200 1 p (retryFrom_pageNet M (by omega) p)
          (Or.inr (Or.inl hf))]
      simp [hd]
    | cons q rest2 =>
      obtain ⟨⟨hd, hf⟩, hc2⟩ : (hasData endpoint p = true
            ∧ followsNext p = true)
          ∧ pageChain endpoint (q :: rest2) = true := by
        simpa [pageChain, Bool.and_eq_true] using hchain
      obtain ⟨u, hu⟩ := nextUrlC_of_followsNext p hf
      rw [List.map_cons,
        fetchLoop_round_continue M endpoint (pageNet p)
          ((q :: rest2).map pageNet) url params acc trace attempts 200 1 p u
          (retryFrom_pageNet M (by omega) p) hd hf hu,
        ih u none (acc ++ payloadOf endpoint p)
          (trace ++ [ReqRecord.mk url params]) (attempts + 1) (by simp) hc2]
      simp [List.append_assoc]

/-- Running the mds_provider_client.py pagination loop over a `goodPrefix`
followed by a page without records stops at that page: only the prefix
payloads are accumulated, whatever rounds the server would still serve. -/
theorem fetchLoop_prefix (M : Int) (hM : 1 ≤ M) (endpoint : String)
    (q : Page α) (hq : hasData endpoint q = false)
    (extra : List (Nat → Outcome α)) :
    ∀ (ps : List (Page α)) (url : String)
      (params : Option (List (String × String))) (acc : List α)
      (trace : List ReqRecord) (attempts : Nat),
      goodPrefix endpoint ps = true →
      (fetchLoop M endpoint true (ps.map pageNet ++ pageNet q :: extra) url
          params acc trace attempts).result
        = .ok (acc ++ (ps.map (payloadOf endpoint)).flatten) := by
  intro ps
  induction ps with
  | nil =>
    intro url params acc trace attempts _
    rw [List.map_nil, List.nil_append,
      fetchLoop_round_break M endpoint true (pageNet q) extra url params acc
        trace attempts 200 1 q (retryFrom_pageNet M (by omega) q)
        (Or.inl hq)]
    simp [hq]
  | cons p rest ih =>
    intro url params acc trace attempts hpre
    obtain ⟨⟨hd, hf⟩, hrest⟩ : (hasData endpoint p = true
          ∧ followsNext p = true)
        ∧ goodPrefix endpoint rest = true := by
      simpa [goodPrefix, Bool.and_eq_true] using hpre
    obtain ⟨u, hu⟩ := nextUrlC_of_followsNext p hf
    rw [List.map_cons, List.cons_append,
      fetchLoop_round_continue M endpoint (pageNet p)
        (rest.map pageNet ++ pageNet q :: extra) url params acc trace
        attempts 200 1 p u (retryFrom_pageNet M (by omega) p) hd hf hu,
      ih u none (acc ++ payloadOf endpoint p)
        (trace ++ [ReqRecord.mk url params]) (attempts + 1) hrest]
    simp [List.append_assoc]

/-- Once the mds_provider_client.py loop runs with `params = None`, every
request record it appends carries `None` params. -/
theorem fetchLoop_params_none (M : Int) (endpoint : String) (paging : Bool) :
    ∀ (rounds : List (Nat → Outcome α)) (url : String) (acc : List α)
      (trace : List ReqRecord) (attempts : Nat),
      ∃ ext : List ReqRecord,
        (fetchLoop M endpoint paging rounds url none acc trace
            attempts).trace
            = trace ++ ext
          ∧ ∀ r ∈ ext, r.params = none := by
  intro rounds
  induction rounds with
  | nil =>
    intro url acc trace attempts
    exact ⟨[], by simp [fetchLoop], by simp⟩
  | cons net rest ih =>
    intro url acc trace attempts
    simp only [fetchLoop]
    cases hr : retryFrom M net 0 with
    | noResponse => exact ⟨[⟨url, none⟩], by simp, by simp⟩
    | timeoutErr k => exact ⟨[⟨url, none⟩], by simp, by simp⟩
    | httpError st k => exact ⟨[⟨url, none⟩], by simp, by simp⟩
    | ok st page k =>
      cases hd : hasData endpoint page with
      | false => exact ⟨[⟨url, none⟩], by simp [hd], by simp⟩
      | true =>
        cases hl : page.links with
        | none => exact ⟨[⟨url, none⟩], by simp [hd, hl], by simp⟩
        | some links =>
          cases he : links.isEmpty with
          | true => exact ⟨[⟨url, none⟩], by simp [hd, hl, he], by simp⟩
          | false =>
            cases hn : lookupKey links "next" with
            | none => exact ⟨[⟨url, none⟩], by simp [hd, hl, he, hn], by simp⟩
            | some u =>
              cases hc : (!paging || u == "") with
              | true =>
                exact ⟨[⟨url, none⟩], by simp [hd, hl, he, hn, hc], by simp⟩
              | false =>
                obtain ⟨ext2, h1, h2⟩ := ih u (acc ++ payloadOf endpoint page)
                  (trace ++ [⟨url, none⟩]) (attempts + k)
                refine ⟨⟨url, none⟩ :: ext2, ?_, ?_⟩
                · simp [hd, hl, he, hn, hc, h1]
                · intro r hr
                  rcases List.mem_cons.mp hr with h | h
                  · subst h; rfl
                  · exact h2 r h

/-- Updating a key makes lookup of that key return the new value, whatever
the dict held before. -/
theorem lookupKey_setKey (d : List (String × String)) (k v : String) :
    lookupKey (setKey d k v) k = some v := by
  induction d with
  | nil => simp [setKey, lookupKey]
  | cons kv rest ih =>
    obtain ⟨k', v'⟩ := kv
    by_cases h : k' = k
    · subst h
      simp [setKey, lookupKey]
    · simp [setKey, lookupKey, h, ih]

/-- Claim C1: for every pagination sequence of pages P1..Pn where each
page envelope holds a non-empty record array at `data[endpoint]` and a
usable `links.next` URL, except Pn which has no next link, a fetch call
with paging=true returns exactly the concatenation of the record arrays of
P1..Pn in the order received, with no sorting and no deduplication. -/
theorem fetch_paging_concat (M : Int) (hM : 1 ≤ M) (endpoint : String)
    (ps : List (Page α)) (hne : ps ≠ [])
    (hchain : pageChain endpoint ps = true) (url : String)
    (params : List (String × String)) :
    (fetchMds M endpoint true (ps.map pageNet) url params).result
      = .ok ((ps.map (payloadOf endpoint)).flatten) := by
  have := fetchLoop_chain M hM endpoint ps url (some params) [] [] 0 hne
    hchain
  rw [fetchMds]
  simpa using this

/-- Witness for C1 at the concrete two-page sequence `pagesW` (which
repeats record 1 on both pages, so the preserved duplicate shows there is
no deduplication and the order shows there is no sorting). -/
theorem fetch_paging_concat_witness :
    pageChain "trips" pagesW = true
      ∧ (fetchMds 5 "trips" true (pagesW.map pageNet) "https://x/trips"
            [("start_time", "0")]).result
          = .ok ((pagesW.map (payloadOf "trips")).flatten) :=
  ⟨by decide,
   fetch_paging_concat 5 (by decide) "trips" pagesW (by decide) (by decide)
     "https://x/trips" [("start_time", "0")]⟩

/-- Claim C2: for every pagination sequence in which some page envelope
has a missing data object, a data object without the endpoint key, or an
empty record array at `data[endpoint]`, fetch stops at that page and
returns only the records accumulated from pages strictly before it, even
when that page carries a `links.next` URL and the server would serve
further rounds. -/
theorem fetch_stops_on_empty (M : Int) (hM : 1 ≤ M) (endpoint : String)
    (ps : List (Page α)) (q : Page α)
    (hpre : goodPrefix endpoint ps = true)
    (hq : hasData endpoint q = false) (extra : List (Nat → Outcome α))
    (url : String) (params : List (String × String)) :
    (fetchMds M endpoint true (ps.map pageNet ++ pageNet q :: extra) url
        params).result
      = .ok ((ps.map (payloadOf endpoint)).flatten) := by
  have := fetchLoop_prefix M hM endpoint q hq extra ps url (some params) []
    [] 0 hpre
  rw [fetchMds]
  simpa using this

/-- Witness for C2: one good page, then `pageEmptyW` whose record array is
empty although it carries a `next` link, then one more round the server
would still serve; only the first page's records come back. -/
theorem fetch_stops_on_empty_witness :
    hasData "trips" pageEmptyW = false
      ∧ (fetchMds 5 "trips" true
            ([cPage1].map pageNet ++ pageNet pageEmptyW :: [pageNet cPage2])
            "https://x/trips" []).result
          = .ok (([cPage1].map (payloadOf "trips")).flatten) :=
  ⟨by decide,
   fetch_stops_on_empty 5 (by decide) "trips" [cPage1] pageEmptyW
     (by decide) (by decide) [pageNet cPage2] "https://x/trips" []⟩

/-- Claim C8: for every pagination sequence whose first page has a
non-empty record array, calling fetch with paging=false returns exactly
the first page's records, whatever its `links` hold and however many
further rounds the server would serve. -/
theorem fetch_first_page_only (M : Int) (hM : 1 ≤ M) (endpoint : String)
    (p : Page α) (rest : List (Nat → Outcome α))
    (hp : hasData endpoint p = true) (url : String)
    (params : List (String × String)) :
    (fetchMds M endpoint false (pageNet p :: rest) url params).result
      = .ok (payloadOf endpoint p) := by
  rw [fetchMds,
    fetchLoop_round_break M endpoint false (pageNet p) rest url
      (some params) [] [] 0 200 1 p (retryFrom_pageNet M (by omega) p)
      (Or.inr (Or.inr rfl))]
  simp [hp]

/-- Witness for C8: the first page `cPage1` carries a `next` link and the
server has a second round ready, yet paging=false returns only the first
page's records. -/
theorem fetch_first_page_only_witness :
    hasData "trips" cPage1 = true
      ∧ (fetchMds 5 "trips" false [pageNet cPage1, pageNet cPage2]
            "https://x/trips" []).result
          = .ok (payloadOf "trips" cPage1) :=
  ⟨by decide,
   fetch_first_page_only 5 (by decide) "trips" cPage1 [pageNet cPage2]
     (by decide) "https://x/trips" []⟩

/-- Claim C3: for every max_attempts at least 1, (i) if a page request
times out on max_attempts consecutive attempts, fetch makes exactly
max_attempts request attempts and then raises the timeout error to the
caller; (ii) if the k-th attempt (k at most max_attempts) succeeds after
k-1 timeouts, fetch makes exactly k attempts for that page and returns the
successful page's records. -/
theorem fetch_retry_attempts (M : Int) (hM : 1 ≤ M) (endpoint url : String)
    (params : List (String × String)) (net : Nat → Outcome α) (p : Page α)
    (k : Nat) :
    ((∀ i : Nat, (i : Int) < M → net i = Outcome.timeout) →
        fetchMds M endpoint true [net] url params
          = ⟨.timeoutError, [⟨url, some params⟩], M.toNat⟩)
  ∧ (1 ≤ k → (k : Int) ≤ M →
      (∀ i : Nat, i < k - 1 → net i = Outcome.timeout) →
      net (k - 1) = Outcome.response 200 p → followsNext p = false →
        fetchMds M endpoint true [net] url params
          = ⟨.ok (payloadOf endpoint p), [⟨url, some params⟩], k⟩) := by
  constructor
  · intro hto
    have hr : retryFrom M net 0 = .timeoutErr M.toNat :=
      retryFrom_all_timeout M net M.toNat 0 (by omega) (by omega)
        fun i _ h2 => hto i h2
    have := (fetchLoop_round_err M endpoint true net [] url (some params)
      [] [] 0).1 M.toNat hr
    rw [fetchMds, this]
    simp
  · intro hk hkM hto hresp hf
    have hr : retryFrom M net 0 = .ok 200 p k := by
      have h1 : ((k - 1 : Nat) : Int) < M := by omega
      have := retryFrom_success M net (k - 1) 200 p h1 hresp (by decide)
        (k - 1) 0 (by omega) (by omega) fun i _ h2 => hto i h2
      rw [this]
      congr 1
      omega
    rw [fetchMds,
      fetchLoop_round_break M endpoint true net [] url (some params) [] []
        0 200 k p hr (Or.inr (Or.inl hf))]
    cases hd : hasData endpoint p with
    | false => simp [hd, payloadOf_eq_nil endpoint p hd]
    | true => simp [hd]

/-- Witness for C3 with max_attempts = 3: a transport timing out on every
attempt yields the timeout error after exactly 3 attempts, and a transport
succeeding on the third attempt yields the page's records after exactly 3
attempts. -/
theorem fetch_retry_attempts_witness :
    fetchMds 3 "trips" true [netTimeoutW] "https://x/trips" []
        = ⟨.timeoutError, [⟨"https://x/trips", some []⟩], (3 : Int).toNat⟩
  ∧ fetchMds 3 "trips" true [netThirdW] "https://x/trips" []
        = ⟨.ok (payloadOf "trips" pw), [⟨"https://x/trips", some []⟩], 3⟩ :=
  ⟨(fetch_retry_attempts 3 (by decide) "trips" "https://x/trips" []
      netTimeoutW pw 3).1 fun i _ => rfl,
   (fetch_retry_attempts 3 (by decide) "trips" "https://x/trips" []
      netThirdW pw 3).2 (by decide) (by decide)
     (fun i hi => by
        simp only [netThirdW]
        rw [if_pos (by omega)])
     rfl (by decide)⟩

/-- Counterexample to claim C4 as stated: a response with status 204 — a
status other than 200 that was not a timeout — does not make fetch raise
anything.  `raise_for_status` only raises for 4xx/5xx (and client.py's
`status_code is not 200` check merely gates extra logging before the same
`raise_for_status` call), so the 204 page is consumed as a normal page and
its records are returned. -/
theorem fetch_204_not_raised :
    (fetchMds 5 "trips" true [fun _ => Outcome.response 204 page204]
        "https://x/trips" [])
      = ⟨.ok [1], [⟨"https://x/trips", some []⟩], 1⟩ := by
  have hr : retryFrom 5 (fun _ => Outcome.response 204 page204) 0
      = .ok 204 page204 1 := by
    rw [retryFrom_eq, if_pos (by decide)]
    rfl
  rw [fetchMds,
    fetchLoop_round_break 5 "trips" true _ [] "https://x/trips" (some [])
      [] [] 0 204 1 page204 hr (Or.inr (Or.inl rfl))]
  decide

/-- Claim C4 as amended: for every page request that receives an HTTP
response with a 4xx or 5xx status (after any number of preceding
timeouts), fetch raises the HTTP error immediately — the failing attempt
is not retried even though attempt budget may remain, and no further
pages are attempted; statuses outside 400..599 are not treated as errors
at all. -/
theorem fetch_raises_4xx_5xx (M : Int) (endpoint : String) (paging : Bool)
    (net : Nat → Outcome α) (rest : List (Nat → Outcome α)) (url : String)
    (params : Option (List (String × String))) (acc : List α)
    (trace : List ReqRecord) (attempts : Nat) (j st : Nat) (p : Page α)
    (hj : (j : Int) < M) (hto : ∀ i : Nat, i < j → net i = Outcome.timeout)
    (hresp : net j = Outcome.response st p)
    (hst : 400 ≤ st ∧ st < 600) :
    fetchLoop M endpoint paging (net :: rest) url params acc trace attempts
      = ⟨.httpError st, trace ++ [⟨url, params⟩], attempts + (j + 1)⟩ := by
  have h1 : raiseForStatus st = true := by
    simp only [raiseForStatus, Bool.and_eq_true, decide_eq_true_eq]
    omega
  have hr : retryFrom M net 0 = .httpError st (j + 1) :=
    retryFrom_httpError M net j st p hj hresp h1 j 0 (by omega) (by omega)
      fun i _ h2 => hto i h2
  exact (fetchLoop_round_err M endpoint paging net rest url params acc
    trace attempts).2.1 st (j + 1) hr

/-- Witness for the amended C4: a 503 on the very first attempt, with four
attempts of budget left and a further server round pending, ends the fetch
at once with the HTTP error after exactly one attempt. -/
theorem fetch_raises_4xx_5xx_witness :
    fetchLoop 5 "trips" true
        [fun _ => Outcome.response 503 pw, pageNet cPage2] "https://x/trips"
        (some []) [] [] 0
      = ⟨.httpError 503, [] ++ [⟨"https://x/trips", some []⟩], 0 + (0 + 1)⟩ :=
  fetch_raises_4xx_5xx 5 "trips" true _ [pageNet cPage2] "https://x/trips"
    (some []) [] [] 0 0 503 pw (by decide) (fun i hi => absurd hi (by omega))
    rfl (by omega)

/-- Claim C10: the fetch is only well-defined when max_attempts is at
least 1.  With max_attempts at most 0 the retry sub-loop body never runs,
so no HTTP request is ever attempted (the attempt count stays 0) and the
subsequent `self.res.json()` (resp. `r.json()` in client.py) reads a
variable that was never assigned, an AttributeError/UnboundLocalError
rather than a clean TimeoutError or an empty result. -/
theorem fetch_nonpos_max_attempts (M : Int) (hM : M ≤ 0)
    (endpoint : String) (paging : Bool) (net : Nat → Outcome α)
    (rest : List (Nat → Outcome α)) (url : String)
    (params : List (String × String)) :
    fetchMds M endpoint paging (net :: rest) url params
      = ⟨.attributeError, [⟨url, some params⟩], 0⟩ := by
  have := (fetchLoop_round_err M endpoint paging net rest url (some params)
    [] [] 0).2.2 (retryFrom_noResponse M net hM)
  rw [fetchMds, this]
  simp

/-- Witness for C10 at max_attempts = 0 against a live server: zero
attempts are made and the unset-variable access is the outcome. -/
theorem fetch_nonpos_max_attempts_witness :
    fetchMds 0 "trips" true [pageNet cPage1] "https://x/trips" []
      = ⟨.attributeError, [⟨"https://x/trips", some []⟩], 0⟩ :=
  fetch_nonpos_max_attempts 0 (by decide) "trips" true (pageNet cPage1) []
    "https://x/trips" []

/-- Counterexample to claim C6 as stated: the client.py revision of
`_request` never clears `params`, so when it follows the `links.next` URL
"u2" the second request carries the original query parameters again
instead of empty ones. -/
theorem client_resends_params :
    (fetchClient 5 "trips" true [pageNet cPage1, pageNet cPage2] "u1"
        [("start_time", "1")]).trace
      = [⟨"u1", some [("start_time", "1")]⟩,
         ⟨"u2", some [("start_time", "1")]⟩] := by
  have h1 : retryFrom 5 (pageNet cPage1) 0 = .ok 200 cPage1 1 :=
    retryFrom_pageNet 5 (by decide) cPage1
  have h2 : retryFrom 5 (pageNet cPage2) 0 = .ok 200 cPage2 1 :=
    retryFrom_pageNet 5 (by decide) cPage2
  rw [fetchClient]
  simp only [fetchLoopC, h1, h2]
  decide

/-- Claim C6 as amended: in the mds_provider_client.py revision of
`_request`, whenever fetch follows a `links.next` URL to request the
second and any subsequent page, the original query parameters are dropped
(`params = None`), so every request after the first carries no query
parameters; the client.py revision instead resends the original caller
parameters with every next-link request. -/
theorem fetch_drops_params (M : Int) (endpoint : String)
    (net : Nat → Outcome α) (rest : List (Nat → Outcome α)) (url : String)
    (params : List (String × String)) :
    ∃ ext : List ReqRecord,
      (fetchMds M endpoint true (net :: rest) url params).trace
          = ⟨url, some params⟩ :: ext
        ∧ ∀ r ∈ ext, r.params = none := by
  rw [fetchMds]
  simp only [fetchLoop]
  cases hr : retryFrom M net 0 with
  | noResponse => exact ⟨[], by simp, by simp⟩
  | timeoutErr k => exact ⟨[], by simp, by simp⟩
  | httpError st k => exact ⟨[], by simp, by simp⟩
  | ok st page k =>
    cases hd : hasData endpoint page with
    | false => exact ⟨[], by simp [hd], by simp⟩
    | true =>
      cases hl : page.links with
      | none => exact ⟨[], by simp [hd, hl], by simp⟩
      | some links =>
        cases he : links.isEmpty with
        | true => exact ⟨[], by simp [hd, hl, he], by simp⟩
        | false =>
          cases hn : lookupKey links "next" with
          | none => exact ⟨[], by simp [hd, hl, he, hn], by simp⟩
          | some u =>
            cases hc : (u == "") with
            | true =>
              have hu : u = "" := by simpa using hc
              exact ⟨[], by simp [hd, hl, he, hn, hu], by simp⟩
            | false =>
              have hu : ¬(u = "") := by simpa using hc
              obtain ⟨ext2, h1, h2⟩ := fetchLoop_params_none M endpoint
                true rest u (payloadOf endpoint page)
                [⟨url, some params⟩] k
              have h1' : (fetchLoop M endpoint true rest u none
                  (payloadOf endpoint page)
                  [ReqRecord.mk url (some params)] k).trace
                  = ReqRecord.mk url (some params) :: ext2 := by
                simpa using h1
              exact ⟨ext2, by simp [hd, hl, he, hn, hu, h1'], h2⟩

/-- Counterexample to claim C5 as stated: the client.py revision of
`__init__` has no credential check at all.  Constructing it with
`token=None` (and no username parameter even existing) succeeds and builds
a session whose Authorization header renders the absent token as the text
"None" — no ConfigurationError is raised. -/
theorem clientC_no_credential_check :
    clientInitC ⟨"https://x", none, "Bearer", []⟩
      = .ok ⟨none, [("Authorization", "Bearer None")]⟩ := rfl

/-- Claim C5 as amended: in the mds_provider_client.py revision, every
configuration that supplies neither a token nor a username fails at
construction time with the configuration error, before the session is
built and without any network request (the raise precedes
`_auth_session`, and no path of `__init__` touches the network); the
client.py revision performs no such check at all. -/
theorem init_requires_credentials (cfg : Config) (ht : cfg.token = none)
    (hu : cfg.user = none) :
    clientInit cfg = .error .configurationError := by
  simp [clientInit, truthyStr, ht, hu]

/-- Witness for the amended C5 at a concrete credential-less
configuration. -/
theorem init_requires_credentials_witness :
    clientInit ⟨"https://x", "Bearer", none, none, none, []⟩
      = .error .configurationError :=
  init_requires_credentials ⟨"https://x", "Bearer", none, none, none, []⟩
    rfl rfl

/-- Claim C7: for every configuration construction accepts, the request
context carries exactly one of the two credential mechanisms — with basic
auth mode, transport-level basic credentials and no explicitly set
Authorization header; otherwise an Authorization header reading
auth_type, a space, and the token, with no basic credentials — and
caller-supplied extra headers never override the Authorization key (the
header the code writes wins). -/
theorem auth_exactly_one (cfg : Config) (s : Session)
    (h : clientInit cfg = .ok s) :
    (strLower cfg.auth_type = "httpbasicauth" →
        s.auth = some (cfg.user, cfg.password)
          ∧ lookupKey s.headers "Authorization" = none)
  ∧ (strLower cfg.auth_type ≠ "httpbasicauth" →
        s.auth = none
          ∧ lookupKey s.headers "Authorization"
              = some (cfg.auth_type ++ " " ++ pyStr cfg.token)) := by
  have hs : s = authSession cfg := by
    cases hc : (!truthyStr cfg.token && !truthyStr cfg.user) with
    | true => simp [clientInit, hc] at h
    | false =>
      simp only [clientInit, hc, Bool.false_eq_true, if_false,
        Except.ok.injEq] at h
      exact h.symm
  subst hs
  constructor
  · intro hb
    simp [authSession, hb, lookupKey]
  · intro hb
    have hb2 : (strLower cfg.auth_type == "httpbasicauth") = false := by
      simpa using hb
    simp [authSession, hb2, lookupKey_setKey]

/-- Witness for C7 at `cfgW`, whose caller headers even contain a rogue
Authorization entry: the built session holds the header
"Bearer T" (the code's value, not the caller's) and no basic
credentials. -/
theorem auth_exactly_one_witness :
    (strLower cfgW.auth_type = "httpbasicauth" →
        sessW.auth = some (cfgW.user, cfgW.password)
          ∧ lookupKey sessW.headers "Authorization" = none)
  ∧ (strLower cfgW.auth_type ≠ "httpbasicauth" →
        sessW.auth = none
          ∧ lookupKey sessW.headers "Authorization"
              = some (cfgW.auth_type ++ " " ++ pyStr cfgW.token)) :=
  auth_exactly_one cfgW sessW rfl

/-- Claim C9: `_date_format` maps a timestamp-like input to its timestamp
truncated to whole Unix seconds and a numeric input to its integer cast,
so a datetime falling on an exact second and that same second as an
integer produce identical outgoing start_time/end_time parameter
values. -/
theorem dateFormat_exact_second (t : ℤ) :
    normalizeTime (some (.datetime (t : ℚ)))
        = normalizeTime (some (.number (t : ℚ)))
      ∧ normalizeTime (some (.datetime (t : ℚ))) = some t := by
  have h1 : intTrunc (t : ℚ) = t := by
    unfold intTrunc
    split <;> simp
  exact ⟨rfl, by simp [normalizeTime, dateFormat, h1]⟩

end MdsProvider
